import Mathlib

/-!
# Verification of the WDSP EMNR/ANR wrapper (WDSPWrapper.c)

Shallow embedding of `src/ThirdParty/wdsp/WDSPWrapper.c`, a C glue layer
between a caller supplying variable-length real (mono) sample buffers and
the WDSP EMNR/ANR engines, which consume fixed-size complex (IQ) double
buffers laid out as `buf[2*i] = I`, `buf[2*i+1] = Q`.

Modelling choices:
- The flat double array `workBuf` of `2 * bufSize` scalars is modelled as a
  list of `bufSize` pairs, pair `i` standing for the scalars at indices
  `2*i` (real/I) and `2*i + 1` (imaginary/Q).
- The external engines (`create_emnr` / `xemnr`, `create_anr` / `xanr`) are
  not part of this repository; the spec treats them as an opaque external
  capability.  They are modelled as abstract parameters: engine creation is
  a function to `Option σ` (NULL on failure) and the per-block in-place
  call `xemnr(impl, 0)` / `xanr(impl, 0)` is a function from the engine
  state and the scratch-buffer contents to the new engine state and the new
  scratch-buffer contents.
- `float` and `double` are abstract sample types `α` and `δ` with abstract
  conversion functions `f2d` (the C cast `(double)x`) and `d2f` (the cast
  `(float)x`), and `dzero : δ` standing for the literal `0.0`.
- C `int` is modelled as `Int`.  The caller's buffer is a `List α`; reading
  `inOut[k]` is `List.getD k default` and writing is `List.set` (the claims
  are settled under the in-bounds hypotheses the C contract assumes).
- The `while (offset < frameCount)` loop is modelled with explicit fuel;
  `frameCount.toNat` units of fuel are supplied at the call site, and the
  totality claim is exactly that this fuel always suffices (the loop
  advances by at least one sample per iteration).
- `calloc`/`free` success and resource bookkeeping in the `create`
  functions are modelled by Boolean allocation oracles and an event trace.
-/

namespace Wdsp

/-- The `struct WDSP_EMNR` context: engine object `impl`, complex IQ scratch
buffer `workBuf` (modelled as `bufSize` (real, imag) pairs, i.e. `2*bufSize`
scalars), and `bufSize`, the number of IQ pairs per `xemnr` call. -/
structure WDSP_EMNR (σ δ : Type) where
  impl : σ
  workBuf : List (δ × δ)
  bufSize : Int
deriving DecidableEq

/-- The `struct WDSP_ANR` context, same shape as `WDSP_EMNR`. -/
structure WDSP_ANR (σ δ : Type) where
  impl : σ
  workBuf : List (δ × δ)
  bufSize : Int
deriving DecidableEq

/-- The argument record of the external `create_emnr` call. -/
structure EmnrParams where
  run : Int
  position : Int
  size : Int
  fsize : Int
  ovrlp : Int
  rate : Int
  wintype : Int
  gain : ℚ
  gain_method : Int
  npe_method : Int
  ae_run : Int
deriving DecidableEq

/-- The argument record of the external `create_anr` call. -/
structure AnrParams where
  run : Int
  position : Int
  buff_size : Int
  dline_size : Int
  n_taps : Int
  delay : Int
  two_mu : ℚ
  gamma : ℚ
  lidx : ℚ
  lidx_min : ℚ
  lidx_max : ℚ
  ngamma : ℚ
  den_mult : ℚ
  lincr : ℚ
  ldecr : ℚ
deriving DecidableEq

/-- Modelled from the spec: `ANR_DLINE_SIZE` is defined in `anr.h`, which is
not part of this repository's sources; the spec fixes the delay-line length
at 2048 (and the source comment at the `create_anr` call site agrees). -/
def ANR_DLINE_SIZE : Int := 2048

/-- Allocation/release events recorded by the `create` functions, one per
`calloc` that succeeds, per engine construction that succeeds, and per
`free`/engine teardown performed on a failure path. -/
inductive AllocEvent where
  | allocCtx
  | allocBuf
  | allocEngine
  | freeCtx
  | freeBuf
  | freeEngine
deriving DecidableEq

/-- Teardown events performed by the `destroy` functions. -/
inductive TeardownEvent where
  | destroyEngine
  | freeWorkBuf
  | freeCtx
deriving DecidableEq

/-- The argument record `wdsp_emnr_create` passes to `create_emnr`:
`fsize = 1920`, `ovrlp = 4`, `bsize = fsize / ovrlp = 480`, caller-supplied
sample rate, Hann window, unit gain, gain method 2, NPE method 0, artifact
elimination on.  The `in`/`out` pointer arguments both alias `workBuf`
(in-place processing) and are represented by the scratch buffer itself. -/
def emnrCreateParams (sampleRate : Int) : EmnrParams :=
  ⟨1,            -- run: 1=active
   0,            -- position
   1920 / 4,     -- size: IQ pairs per call (= bsize)
   1920,         -- fsize: FFT size
   4,            -- ovrlp: overlap factor
   sampleRate,   -- rate
   0,            -- wintype: 0=Hann
   1,            -- gain
   2,            -- gain_method
   0,            -- npe_method
   1⟩            -- ae_run

/-- The argument record `wdsp_anr_create` passes to `create_anr`.  Note the
caller's `sampleRate` does not appear: the C code discards it with
`(void)sampleRate`. -/
def anrCreateParams : AnrParams :=
  ⟨1,              -- run
   0,              -- position
   480,            -- buff_size: IQ pairs
   ANR_DLINE_SIZE, -- dline_size: 2048
   64,             -- n_taps
   16,             -- delay
   0.0001,         -- two_mu
   0.1,            -- gamma
   120.0,          -- lidx
   120.0,          -- lidx_min
   200.0,          -- lidx_max
   0.001,          -- ngamma
   6.25e-10,       -- den_mult
   1.0,            -- lincr
   3.0⟩            -- ldecr

/-- `wdsp_emnr_create`: allocates the context (`allocCtxOk` models the first
`calloc` succeeding), computes `bsize = fsize / ovrlp`, allocates the zeroed
scratch buffer (`allocBufOk` models the second `calloc`), and calls the
external `create_emnr`.  Each failure path frees what was allocated before
it, in the order the C code frees it, and returns NULL (`none`).  The
returned trace records the successful allocations and the frees performed. -/
def wdsp_emnr_create {σ δ : Type} (allocCtxOk allocBufOk : Bool)
    (create_emnr : EmnrParams → Option σ) (dzero : δ) (sampleRate : Int) :
    Option (WDSP_EMNR σ δ) × List AllocEvent :=
  if allocCtxOk = false then (none, [])
  else
    let fsize : Int := 1920
    let ovrlp : Int := 4
    let bsize : Int := fsize / ovrlp
    if allocBufOk = false then (none, [AllocEvent.allocCtx, AllocEvent.freeCtx])
    else
      match create_emnr (emnrCreateParams sampleRate) with
      | none =>
          (none, [AllocEvent.allocCtx, AllocEvent.allocBuf,
                  AllocEvent.freeBuf, AllocEvent.freeCtx])
      | some impl =>
          (some ⟨impl, List.replicate bsize.toNat (dzero, dzero), bsize⟩,
           [AllocEvent.allocCtx, AllocEvent.allocBuf, AllocEvent.allocEngine])

/-- `wdsp_anr_create`: same shape as `wdsp_emnr_create` with `bsize = 480`
directly and the ANR parameter record; the `sampleRate` argument is
discarded (`(void)sampleRate`). -/
def wdsp_anr_create {σ δ : Type} (allocCtxOk allocBufOk : Bool)
    (create_anr : AnrParams → Option σ) (dzero : δ) (sampleRate : Int) :
    Option (WDSP_ANR σ δ) × List AllocEvent :=
  if allocCtxOk = false then (none, [])
  else
    let bsize : Int := 480
    if allocBufOk = false then (none, [AllocEvent.allocCtx, AllocEvent.freeCtx])
    else
      match create_anr anrCreateParams with
      | none =>
          (none, [AllocEvent.allocCtx, AllocEvent.allocBuf,
                  AllocEvent.freeBuf, AllocEvent.freeCtx])
      | some impl =>
          (some ⟨impl, List.replicate bsize.toNat (dzero, dzero), bsize⟩,
           [AllocEvent.allocCtx, AllocEvent.allocBuf, AllocEvent.allocEngine])

/-- One chunk's packing step, covering both per-chunk `for` loops of the
process functions: slot `i < chunk` receives
`(f2d inOut[offset + i], dzero)` (real sample in, imaginary zeroed), and
slot `chunk ≤ i < bsize` receives `(dzero, dzero)` (zero-padding of a short
final chunk).  Every one of the `bsize` scratch slots is written. -/
def packChunk {α δ : Type} [Inhabited α] (f2d : α → δ) (dzero : δ)
    (inOut : List α) (offset chunk bsize : Int) : List (δ × δ) :=
  (List.range bsize.toNat).map fun (i : Nat) =>
    if (i : Int) < chunk then
      (f2d (inOut.getD (offset + (i : Int)).toNat default), dzero)
    else (dzero, dzero)

/-- One chunk's write-back step (`inOut[offset + i] = (float)workBuf[2*i]`
for `0 ≤ i < chunk`): the real component of each of the first `chunk`
scratch slots overwrites the caller's buffer at the chunk's offsets; the
imaginary output is discarded. -/
def writeBack {α δ : Type} [Inhabited δ] (d2f : δ → α) (work : List (δ × δ))
    (offset chunk : Int) (inOut : List α) : List α :=
  (List.range chunk.toNat).foldl
    (fun b (i : Nat) =>
      b.set (offset + (i : Int)).toNat (d2f (work.getD i default).1))
    inOut

/-- The `while (offset < frameCount)` loop shared verbatim by
`wdsp_emnr_process` and `wdsp_anr_process` (the two C bodies are textually
identical except for the engine call).  `step` is the in-place engine call
(`xemnr(impl, 0)` resp. `xanr(impl, 0)`) acting on the engine state and the
scratch buffer.  Fuel makes the recursion structural; `none` means the fuel
ran out before the loop finished.  The result carries the final engine
state, scratch-buffer contents, caller buffer, and the accumulated list of
scratch-buffer snapshots passed to the engine, one per invocation. -/
def processLoop {σ α δ : Type} [Inhabited α] [Inhabited δ]
    (step : σ → List (δ × δ) → σ × List (δ × δ))
    (f2d : α → δ) (d2f : δ → α) (dzero : δ) (bsize frameCount : Int) :
    Nat → Int → σ → List (δ × δ) → List α → List (List (δ × δ)) →
    Option (σ × List (δ × δ) × List α × List (List (δ × δ)))
  | 0, offset, impl, workBuf, inOut, calls =>
      if offset < frameCount then none
      else some (impl, workBuf, inOut, calls)
  | fuel + 1, offset, impl, workBuf, inOut, calls =>
      if offset < frameCount then
        let chunk := min (frameCount - offset) bsize
        let packed := packChunk f2d dzero inOut offset chunk bsize
        let stepped := step impl packed
        let inOut2 := writeBack d2f stepped.2 offset chunk inOut
        processLoop step f2d d2f dzero bsize frameCount fuel (offset + chunk)
          stepped.1 stepped.2 inOut2 (calls ++ [packed])
      else some (impl, workBuf, inOut, calls)

/-- `wdsp_emnr_process(ctx, inOut, frameCount)`: runs the chunk loop from
`offset = 0` with the context's engine state and scratch buffer, returning
the updated context, the updated caller buffer, and the engine-call
snapshots.  `frameCount.toNat` fuel is supplied; `none` (never reached for
a context with positive `bufSize`) would mean the loop failed to finish. -/
def wdsp_emnr_process {σ α δ : Type} [Inhabited α] [Inhabited δ]
    (xemnr : σ → List (δ × δ) → σ × List (δ × δ))
    (f2d : α → δ) (d2f : δ → α) (dzero : δ)
    (ctx : WDSP_EMNR σ δ) (inOut : List α) (frameCount : Int) :
    Option (WDSP_EMNR σ δ × List α × List (List (δ × δ))) :=
  (processLoop xemnr f2d d2f dzero ctx.bufSize frameCount
      frameCount.toNat 0 ctx.impl ctx.workBuf inOut []).map
    fun r => (⟨r.1, r.2.1, ctx.bufSize⟩, r.2.2.1, r.2.2.2)

/-- `wdsp_anr_process`, textually identical to `wdsp_emnr_process` in the C
source except that the engine call is `xanr(impl, 0)`. -/
def wdsp_anr_process {σ α δ : Type} [Inhabited α] [Inhabited δ]
    (xanr : σ → List (δ × δ) → σ × List (δ × δ))
    (f2d : α → δ) (d2f : δ → α) (dzero : δ)
    (ctx : WDSP_ANR σ δ) (inOut : List α) (frameCount : Int) :
    Option (WDSP_ANR σ δ × List α × List (List (δ × δ))) :=
  (processLoop xanr f2d d2f dzero ctx.bufSize frameCount
      frameCount.toNat 0 ctx.impl ctx.workBuf inOut []).map
    fun r => (⟨r.1, r.2.1, ctx.bufSize⟩, r.2.2.1, r.2.2.2)

/-- `wdsp_emnr_destroy`: `if (!ctx) return;` then engine teardown, then
`free(ctx->workBuf)`, then `free(ctx)`.  The result is the list of teardown
actions performed, in order. -/
def wdsp_emnr_destroy {σ δ : Type} (ctx : Option (WDSP_EMNR σ δ)) :
    List TeardownEvent :=
  match ctx with
  | none => []
  | some _ => [TeardownEvent.destroyEngine, TeardownEvent.freeWorkBuf,
               TeardownEvent.freeCtx]

/-- `wdsp_anr_destroy`, same shape as `wdsp_emnr_destroy`. -/
def wdsp_anr_destroy {σ δ : Type} (ctx : Option (WDSP_ANR σ δ)) :
    List TeardownEvent :=
  match ctx with
  | none => []
  | some _ => [TeardownEvent.destroyEngine, TeardownEvent.freeWorkBuf,
               TeardownEvent.freeCtx]

/-- A sequence of `wdsp_emnr_process` calls on one EMNR context: each job is
a (buffer, frameCount) pair; the context state threads through, and the
output buffers are collected. -/
def emnrProcessSeq {σ α δ : Type} [Inhabited α] [Inhabited δ]
    (xemnr : σ → List (δ × δ) → σ × List (δ × δ))
    (f2d : α → δ) (d2f : δ → α) (dzero : δ)
    (ctx : WDSP_EMNR σ δ) (jobs : List (List α × Int)) :
    Option (WDSP_EMNR σ δ × List (List α)) :=
  jobs.foldl
    (fun acc job =>
      match acc with
      | none => none
      | some st =>
        match wdsp_emnr_process xemnr f2d d2f dzero st.1 job.1 job.2 with
        | none => none
        | some r => some (r.1, st.2 ++ [r.2.1]))
    (some (ctx, []))

/-- A sequence of `wdsp_anr_process` calls on one ANR context. -/
def anrProcessSeq {σ α δ : Type} [Inhabited α] [Inhabited δ]
    (xanr : σ → List (δ × δ) → σ × List (δ × δ))
    (f2d : α → δ) (d2f : δ → α) (dzero : δ)
    (ctx : WDSP_ANR σ δ) (jobs : List (List α × Int)) :
    Option (WDSP_ANR σ δ × List (List α)) :=
  jobs.foldl
    (fun acc job =>
      match acc with
      | none => none
      | some st =>
        match wdsp_anr_process xanr f2d d2f dzero st.1 job.1 job.2 with
        | none => none
        | some r => some (r.1, st.2 ++ [r.2.1]))
    (some (ctx, []))

/-! ## Helper lemmas -/

theorem foldl_set_length {α : Type} (g : Nat → α) (idx : Nat → Nat) :
    ∀ (n : Nat) (b : List α),
      ((List.range n).foldl (fun acc i => acc.set (idx i) (g i)) b).length
        = b.length := by
  intro n
  induction n with
  | zero => intro b; simp
  | succ n ih =>
      intro b
      rw [List.range_succ, List.foldl_append]
      simp [ih]

theorem foldl_set_getElem? {α : Type} (g : Nat → α) (idx : Nat → Nat) (j : Nat) :
    ∀ (n : Nat) (b : List α), (∀ i, i < n → idx i ≠ j) →
      ((List.range n).foldl (fun acc i => acc.set (idx i) (g i)) b)[j]?
        = b[j]? := by
  intro n
  induction n with
  | zero => intro b _; simp
  | succ n ih =>
      intro b hne
      rw [List.range_succ, List.foldl_append]
      simp only [List.foldl_cons, List.foldl_nil]
      rw [List.getElem?_set_ne (hne n (by omega))]
      exact ih b (fun i hi => hne i (by omega))

theorem writeBack_length {α δ : Type} [Inhabited δ] (d2f : δ → α)
    (work : List (δ × δ)) (offset chunk : Int) (inOut : List α) :
    (writeBack d2f work offset chunk inOut).length = inOut.length := by
  unfold writeBack
  exact foldl_set_length _ _ _ _

theorem writeBack_getElem?_outside {α δ : Type} [Inhabited δ] (d2f : δ → α)
    (work : List (δ × δ)) (offset chunk : Int) (inOut : List α)
    (h0 : 0 ≤ offset) (j : Nat)
    (hj : (j : Int) < offset ∨ offset + chunk ≤ (j : Int)) :
    (writeBack d2f work offset chunk inOut)[j]? = inOut[j]? := by
  unfold writeBack
  refine foldl_set_getElem? _ _ _ _ _ ?_
  intro i hi
  omega

theorem packChunk_length {α δ : Type} [Inhabited α] (f2d : α → δ) (dzero : δ)
    (inOut : List α) (offset chunk bsize : Int) :
    (packChunk f2d dzero inOut offset chunk bsize).length = bsize.toNat := by
  unfold packChunk
  rw [List.length_map, List.length_range]

theorem packChunk_getElem? {α δ : Type} [Inhabited α] (f2d : α → δ) (dzero : δ)
    (inOut : List α) (offset chunk bsize : Int) (i : Nat)
    (hi : i < bsize.toNat) :
    (packChunk f2d dzero inOut offset chunk bsize)[i]? =
      some (if (i : Int) < chunk then
              (f2d (inOut.getD (offset + (i : Int)).toNat default), dzero)
            else (dzero, dzero)) := by
  unfold packChunk
  rw [List.getElem?_map, List.getElem?_range hi]
  rfl

theorem packChunk_snd {α δ : Type} [Inhabited α] (f2d : α → δ) (dzero : δ)
    (inOut : List α) (offset chunk bsize : Int) (p : δ × δ)
    (hp : p ∈ packChunk f2d dzero inOut offset chunk bsize) : p.2 = dzero := by
  simp only [packChunk] at hp
  rcases List.mem_map.1 hp with ⟨i, _, rfl⟩
  split
  · rfl
  · rfl

theorem processLoop_not_lt {σ α δ : Type} [Inhabited α] [Inhabited δ]
    (step : σ → List (δ × δ) → σ × List (δ × δ)) (f2d : α → δ) (d2f : δ → α)
    (dzero : δ) (bsize frameCount : Int) (fuel : Nat) (offset : Int) (impl : σ)
    (work : List (δ × δ)) (inOut : List α) (calls : List (List (δ × δ)))
    (h : ¬ offset < frameCount) :
    processLoop step f2d d2f dzero bsize frameCount fuel offset impl work
      inOut calls = some (impl, work, inOut, calls) := by
  cases fuel <;> simp [processLoop, h]

theorem processLoop_succ_lt {σ α δ : Type} [Inhabited α] [Inhabited δ]
    (step : σ → List (δ × δ) → σ × List (δ × δ)) (f2d : α → δ) (d2f : δ → α)
    (dzero : δ) (bsize frameCount : Int) (fuel : Nat) (offset : Int) (impl : σ)
    (work : List (δ × δ)) (inOut : List α) (calls : List (List (δ × δ)))
    (hlt : offset < frameCount) :
    processLoop step f2d d2f dzero bsize frameCount (fuel + 1) offset impl work
      inOut calls =
    processLoop step f2d d2f dzero bsize frameCount fuel
      (offset + min (frameCount - offset) bsize)
      (step impl (packChunk f2d dzero inOut offset
        (min (frameCount - offset) bsize) bsize)).1
      (step impl (packChunk f2d dzero inOut offset
        (min (frameCount - offset) bsize) bsize)).2
      (writeBack d2f
        (step impl (packChunk f2d dzero inOut offset
          (min (frameCount - offset) bsize) bsize)).2
        offset (min (frameCount - offset) bsize) inOut)
      (calls ++ [packChunk f2d dzero inOut offset
        (min (frameCount - offset) bsize) bsize]) := by
  simp [processLoop, hlt]

theorem processLoop_calls_snd {σ α δ : Type} [Inhabited α] [Inhabited δ]
    (step : σ → List (δ × δ) → σ × List (δ × δ)) (f2d : α → δ) (d2f : δ → α)
    (dzero : δ) (bsize frameCount : Int) :
    ∀ (fuel : Nat) (offset : Int) (impl : σ) (work : List (δ × δ))
      (inOut : List α) (calls : List (List (δ × δ))) (impl2 : σ)
      (work2 : List (δ × δ)) (inOut2 : List α) (calls2 : List (List (δ × δ))),
      processLoop step f2d d2f dzero bsize frameCount fuel offset impl work
        inOut calls = some (impl2, work2, inOut2, calls2) →
      (∀ c ∈ calls, ∀ p ∈ c, p.2 = dzero) →
      ∀ c ∈ calls2, ∀ p ∈ c, p.2 = dzero := by
  intro fuel
  induction fuel with
  | zero =>
      intro offset impl work inOut calls impl2 work2 inOut2 calls2 heq hcalls
      by_cases h : offset < frameCount
      · simp [processLoop, h] at heq
      · rw [processLoop_not_lt _ _ _ _ _ _ _ _ _ _ _ _ h] at heq
        obtain ⟨-, -, -, rfl⟩ := Prod.mk.injEq .. ▸ Option.some.inj heq
        exact hcalls
  | succ fuel ih =>
      intro offset impl work inOut calls impl2 work2 inOut2 calls2 heq hcalls
      by_cases h : offset < frameCount
      · rw [processLoop_succ_lt _ _ _ _ _ _ _ _ _ _ _ _ h] at heq
        refine ih _ _ _ _ _ _ _ _ _ heq ?_
        intro c hc
        rcases List.mem_append.1 hc with hc | hc
        · exact hcalls c hc
        · rcases List.mem_singleton.1 hc with rfl
          intro p hp
          exact packChunk_snd _ _ _ _ _ _ _ hp
      · rw [processLoop_not_lt _ _ _ _ _ _ _ _ _ _ _ _ h] at heq
        obtain ⟨-, -, -, rfl⟩ := Prod.mk.injEq .. ▸ Option.some.inj heq
        exact hcalls

theorem processLoop_master {σ α δ : Type} [Inhabited α] [Inhabited δ]
    (step : σ → List (δ × δ) → σ × List (δ × δ)) (f2d : α → δ) (d2f : δ → α)
    (dzero : δ) (frameCount : Int) :
    ∀ (fuel : Nat) (offset : Int) (impl : σ) (work : List (δ × δ))
      (inOut : List α) (calls : List (List (δ × δ))),
      0 ≤ offset → frameCount - offset ≤ (fuel : Int) →
      ∃ impl2 work2 inOut2 newCalls,
        processLoop step f2d d2f dzero 480 frameCount fuel offset impl work
          inOut calls = some (impl2, work2, inOut2, calls ++ newCalls) ∧
        newCalls.length = ((frameCount - offset).toNat + 479) / 480 ∧
        inOut2.length = inOut.length ∧
        (∀ j : Nat, ((j : Int) < offset ∨ frameCount ≤ (j : Int)) →
          inOut2[j]? = inOut[j]?) ∧
        ((frameCount - offset).toNat % 480 ≠ 0 →
          ∃ lastCall, newCalls.getLast? = some lastCall ∧
            ∀ i : Nat, (frameCount - offset).toNat % 480 ≤ i → i < 480 →
              lastCall[i]? = some (dzero, dzero)) := by
  intro fuel
  induction fuel with
  | zero =>
      intro offset impl work inOut calls h0 hle
      have hnlt : ¬ offset < frameCount := by omega
      refine ⟨impl, work, inOut, [], ?_, ?_, rfl, fun j _ => rfl, ?_⟩
      · rw [List.append_nil]
        exact processLoop_not_lt _ _ _ _ _ _ _ _ _ _ _ _ hnlt
      · simp only [List.length_nil]
        omega
      · intro hmod
        exfalso
        omega
  | succ fuel ih =>
      intro offset impl work inOut calls h0 hle
      by_cases hlt : offset < frameCount
      · obtain ⟨impl2, work2, inOut2, newCalls', heq, hlen, hio, hout, hlast⟩ :=
          ih (offset + min (frameCount - offset) 480)
            (step impl (packChunk f2d dzero inOut offset
              (min (frameCount - offset) 480) 480)).1
            (step impl (packChunk f2d dzero inOut offset
              (min (frameCount - offset) 480) 480)).2
            (writeBack d2f
              (step impl (packChunk f2d dzero inOut offset
                (min (frameCount - offset) 480) 480)).2
              offset (min (frameCount - offset) 480) inOut)
            (calls ++ [packChunk f2d dzero inOut offset
              (min (frameCount - offset) 480) 480])
            (by omega) (by omega)
        refine ⟨impl2, work2, inOut2,
          packChunk f2d dzero inOut offset (min (frameCount - offset) 480) 480
            :: newCalls', ?_, ?_, ?_, ?_, ?_⟩
        · rw [processLoop_succ_lt _ _ _ _ _ _ _ _ _ _ _ _ hlt, heq,
            List.append_assoc, List.singleton_append]
        · rw [List.length_cons, hlen]
          omega
        · rw [hio]
          exact writeBack_length _ _ _ _ _
        · intro j hj
          rcases hj with hj | hj
          · rw [hout j (Or.inl (by omega))]
            exact writeBack_getElem?_outside _ _ _ _ _ h0 j (Or.inl (by omega))
          · rw [hout j (Or.inr hj)]
            exact writeBack_getElem?_outside _ _ _ _ _ h0 j (Or.inr (by omega))
        · intro hmod
          by_cases hbig : 480 < frameCount - offset
          · have hmod' :
                (frameCount - (offset + min (frameCount - offset) 480)).toNat % 480
                  = (frameCount - offset).toNat % 480 := by omega
            obtain ⟨lastCall, hl1, hl2⟩ := hlast (by omega)
            refine ⟨lastCall, ?_, fun i h1 h2 => hl2 i (by omega) h2⟩
            cases newCalls' with
            | nil => simp at hl1
            | cons b bs => rw [List.getLast?_cons_cons]; exact hl1
          · have hchunk : min (frameCount - offset) 480 = frameCount - offset := by
              omega
            have hnc : newCalls' = [] := by
              refine List.length_eq_zero.1 ?_
              rw [hlen]
              omega
            subst hnc
            refine ⟨packChunk f2d dzero inOut offset
              (min (frameCount - offset) 480) 480, rfl, ?_⟩
            intro i h1 h2
            rw [packChunk_getElem? _ _ _ _ _ _ _ (by omega),
              if_neg (by omega)]
      · have hR : (frameCount - offset).toNat = 0 := by omega
        refine ⟨impl, work, inOut, [], ?_, ?_, rfl, fun j _ => rfl, ?_⟩
        · rw [List.append_nil]
          exact processLoop_not_lt _ _ _ _ _ _ _ _ _ _ _ _ hlt
        · simp only [List.length_nil]
          omega
        · intro hmod
          exfalso
          omega

theorem emnr_process_spec {σ α δ : Type} [Inhabited α] [Inhabited δ]
    (xemnr : σ → List (δ × δ) → σ × List (δ × δ))
    (f2d : α → δ) (d2f : δ → α) (dzero : δ)
    (ctx : WDSP_EMNR σ δ) (inOut : List α) (F : Int)
    (hb : ctx.bufSize = 480) (hF : 0 ≤ F) :
    ∃ impl2 work2 inOut2 calls,
      wdsp_emnr_process xemnr f2d d2f dzero ctx inOut F
        = some (⟨impl2, work2, 480⟩, inOut2, calls) ∧
      calls.length = (F.toNat + 479) / 480 ∧
      inOut2.length = inOut.length ∧
      (∀ j : Nat, F ≤ (j : Int) → inOut2[j]? = inOut[j]?) ∧
      (F.toNat % 480 ≠ 0 →
        ∃ lastCall, calls.getLast? = some lastCall ∧
          ∀ i : Nat, F.toNat % 480 ≤ i → i < 480 →
            lastCall[i]? = some (dzero, dzero)) := by
  obtain ⟨impl2, work2, inOut2, newCalls, heq, hlen, hio, hout, hlast⟩ :=
    processLoop_master xemnr f2d d2f dzero F F.toNat 0 ctx.impl ctx.workBuf
      inOut [] le_rfl (by omega)
  simp only [List.nil_append, Int.sub_zero] at heq hlen hlast
  refine ⟨impl2, work2, inOut2, newCalls, ?_, hlen, hio, ?_, hlast⟩
  · unfold wdsp_emnr_process
    rw [hb, heq]
    rfl
  · intro j hj
    exact hout j (Or.inr (by omega))

theorem anr_process_spec {σ α δ : Type} [Inhabited α] [Inhabited δ]
    (xanr : σ → List (δ × δ) → σ × List (δ × δ))
    (f2d : α → δ) (d2f : δ → α) (dzero : δ)
    (ctx : WDSP_ANR σ δ) (inOut : List α) (F : Int)
    (hb : ctx.bufSize = 480) (hF : 0 ≤ F) :
    ∃ impl2 work2 inOut2 calls,
      wdsp_anr_process xanr f2d d2f dzero ctx inOut F
        = some (⟨impl2, work2, 480⟩, inOut2, calls) ∧
      calls.length = (F.toNat + 479) / 480 ∧
      inOut2.length = inOut.length ∧
      (∀ j : Nat, F ≤ (j : Int) → inOut2[j]? = inOut[j]?) ∧
      (F.toNat % 480 ≠ 0 →
        ∃ lastCall, calls.getLast? = some lastCall ∧
          ∀ i : Nat, F.toNat % 480 ≤ i → i < 480 →
            lastCall[i]? = some (dzero, dzero)) := by
  obtain ⟨impl2, work2, inOut2, newCalls, heq, hlen, hio, hout, hlast⟩ :=
    processLoop_master xanr f2d d2f dzero F F.toNat 0 ctx.impl ctx.workBuf
      inOut [] le_rfl (by omega)
  simp only [List.nil_append, Int.sub_zero] at heq hlen hlast
  refine ⟨impl2, work2, inOut2, newCalls, ?_, hlen, hio, ?_, hlast⟩
  · unfold wdsp_anr_process
    rw [hb, heq]
    rfl
  · intro j hj
    exact hout j (Or.inr (by omega))

/-! ## Concrete fixtures for witnesses -/

/-- A concrete EMNR context (trivial engine state, integer samples) with the
block size 480 that `wdsp_emnr_create` always installs. -/
def emnrCtx480 : WDSP_EMNR Unit Int :=
  ⟨(), List.replicate 480 ((0 : Int), (0 : Int)), 480⟩

/-- A concrete ANR context with block size 480. -/
def anrCtx480 : WDSP_ANR Unit Int :=
  ⟨(), List.replicate 480 ((0 : Int), (0 : Int)), 480⟩

/-- A concrete EMNR context with block size 1 (the claims about the packing
invariants hold for any block size, so small instances evaluate quickly). -/
def emnrCtx1 : WDSP_EMNR Unit Int := ⟨(), [((0 : Int), (0 : Int))], 1⟩

/-- A concrete ANR context with block size 1. -/
def anrCtx1 : WDSP_ANR Unit Int := ⟨(), [((0 : Int), (0 : Int))], 1⟩

/-- A concrete engine step: the identity on the scratch buffer. -/
def idStep : Unit → List (Int × Int) → Unit × List (Int × Int) :=
  fun s b => (s, b)

/-! ## Claim theorems -/

/-- C9: `wdsp_emnr_destroy` and `wdsp_anr_destroy` applied to a null handle
are no-ops: they return immediately, performing no engine teardown and
releasing nothing (the teardown event trace is empty). -/
theorem destroy_null_noop (σE δE σA δA : Type) :
    wdsp_emnr_destroy (none : Option (WDSP_EMNR σE δE)) = [] ∧
    wdsp_anr_destroy (none : Option (WDSP_ANR σA δA)) = [] :=
  ⟨rfl, rfl⟩

/-- C10: for every negative `frameCount`, both process variants are no-ops:
the loop guard `offset < frameCount` fails immediately at `offset = 0`, so
no engine invocation occurs (empty call list), the caller's buffer is
returned unchanged, and the context is unchanged. -/
theorem process_negative_frameCount_noop (σE σA α δ : Type)
    [Inhabited α] [Inhabited δ]
    (xemnr : σE → List (δ × δ) → σE × List (δ × δ))
    (xanr : σA → List (δ × δ) → σA × List (δ × δ))
    (f2d : α → δ) (d2f : δ → α) (dzero : δ)
    (ctxE : WDSP_EMNR σE δ) (ctxA : WDSP_ANR σA δ)
    (inOutE inOutA : List α) (F G : Int) (hF : F < 0) (hG : G < 0) :
    wdsp_emnr_process xemnr f2d d2f dzero ctxE inOutE F
      = some (ctxE, inOutE, []) ∧
    wdsp_anr_process xanr f2d d2f dzero ctxA inOutA G
      = some (ctxA, inOutA, []) := by
  constructor
  · unfold wdsp_emnr_process
    rw [processLoop_not_lt _ _ _ _ _ _ _ _ _ _ _ _ (by omega)]
    rfl
  · unfold wdsp_anr_process
    rw [processLoop_not_lt _ _ _ _ _ _ _ _ _ _ _ _ (by omega)]
    rfl

/-- Witness for C10 at `frameCount = -1`. -/
theorem process_negative_frameCount_noop_witness :
    ((-1 : Int) < 0) ∧
    (wdsp_emnr_process idStep id id (0 : Int) emnrCtx480 [(7 : Int)] (-1)
      = some (emnrCtx480, [(7 : Int)], []) ∧
     wdsp_anr_process idStep id id (0 : Int) anrCtx480 [(7 : Int)] (-1)
      = some (anrCtx480, [(7 : Int)], [])) :=
  ⟨by decide,
   process_negative_frameCount_noop Unit Unit Int Int idStep idStep id id 0
     emnrCtx480 anrCtx480 [(7 : Int)] [(7 : Int)] (-1) (-1)
     (by decide) (by decide)⟩

/-- C4: at every engine invocation made by either process variant, every
imaginary slot of the scratch buffer (the second component of each pair) is
zero at the moment the engine is called, whatever the chunk length and the
caller's input values. -/
theorem process_imag_always_zero (σE σA α δ : Type) [Inhabited α] [Inhabited δ]
    (xemnr : σE → List (δ × δ) → σE × List (δ × δ))
    (xanr : σA → List (δ × δ) → σA × List (δ × δ))
    (f2d : α → δ) (d2f : δ → α) (dzero : δ)
    (ctxE : WDSP_EMNR σE δ) (ctxA : WDSP_ANR σA δ)
    (inOutE inOutA : List α) (F G : Int)
    (rE : WDSP_EMNR σE δ × List α × List (List (δ × δ)))
    (rA : WDSP_ANR σA δ × List α × List (List (δ × δ)))
    (hE : wdsp_emnr_process xemnr f2d d2f dzero ctxE inOutE F = some rE)
    (hA : wdsp_anr_process xanr f2d d2f dzero ctxA inOutA G = some rA) :
    (∀ c ∈ rE.2.2, ∀ p ∈ c, p.2 = dzero) ∧
    (∀ c ∈ rA.2.2, ∀ p ∈ c, p.2 = dzero) := by
  constructor
  · unfold wdsp_emnr_process at hE
    obtain ⟨a, ha, rfl⟩ := Option.map_eq_some'.1 hE
    exact processLoop_calls_snd xemnr f2d d2f dzero ctxE.bufSize F F.toNat 0
      ctxE.impl ctxE.workBuf inOutE [] a.1 a.2.1 a.2.2.1 a.2.2.2 ha
      (fun c hc => absurd hc (List.not_mem_nil c))
  · unfold wdsp_anr_process at hA
    obtain ⟨a, ha, rfl⟩ := Option.map_eq_some'.1 hA
    exact processLoop_calls_snd xanr f2d d2f dzero ctxA.bufSize G G.toNat 0
      ctxA.impl ctxA.workBuf inOutA [] a.1 a.2.1 a.2.2.1 a.2.2.2 ha
      (fun c hc => absurd hc (List.not_mem_nil c))

/-- Witness for C4: one engine call on a block-size-1 context; the single
snapshot is `[(5, 0)]` and its imaginary slot is zero. -/
theorem process_imag_always_zero_witness :
    (wdsp_emnr_process idStep id id (0 : Int) emnrCtx1 [(5 : Int)] 1
      = some (⟨(), [((5 : Int), (0 : Int))], 1⟩, [(5 : Int)],
              [[((5 : Int), (0 : Int))]]) ∧
     wdsp_anr_process idStep id id (0 : Int) anrCtx1 [(5 : Int)] 1
      = some (⟨(), [((5 : Int), (0 : Int))], 1⟩, [(5 : Int)],
              [[((5 : Int), (0 : Int))]])) ∧
    ((∀ c ∈ [[((5 : Int), (0 : Int))]], ∀ p ∈ c, p.2 = (0 : Int)) ∧
     (∀ c ∈ [[((5 : Int), (0 : Int))]], ∀ p ∈ c, p.2 = (0 : Int))) :=
  ⟨⟨by decide, by decide⟩,
   process_imag_always_zero Unit Unit Int Int idStep idStep id id 0
     emnrCtx1 anrCtx1 [(5 : Int)] [(5 : Int)] 1 1
     (⟨(), [((5 : Int), (0 : Int))], 1⟩, [(5 : Int)],
       [[((5 : Int), (0 : Int))]])
     (⟨(), [((5 : Int), (0 : Int))], 1⟩, [(5 : Int)],
       [[((5 : Int), (0 : Int))]])
     (by decide) (by decide)⟩

/-- C6: once constructed (block size 480 > 0), both process variants
terminate and cannot fail for any non-negative frame count: the chunk loop
consumes at least one sample per iteration, so `frameCount.toNat` fuel
always suffices and a result is always produced. -/
theorem process_total (σE σA α δ : Type) [Inhabited α] [Inhabited δ]
    (xemnr : σE → List (δ × δ) → σE × List (δ × δ))
    (xanr : σA → List (δ × δ) → σA × List (δ × δ))
    (f2d : α → δ) (d2f : δ → α) (dzero : δ)
    (ctxE : WDSP_EMNR σE δ) (ctxA : WDSP_ANR σA δ)
    (inOutE inOutA : List α) (F G : Int)
    (hbE : ctxE.bufSize = 480) (hbA : ctxA.bufSize = 480)
    (hF : 0 ≤ F) (hG : 0 ≤ G) :
    (wdsp_emnr_process xemnr f2d d2f dzero ctxE inOutE F).isSome = true ∧
    (wdsp_anr_process xanr f2d d2f dzero ctxA inOutA G).isSome = true := by
  constructor
  · obtain ⟨impl2, work2, inOut2, calls, heq, -⟩ :=
      emnr_process_spec xemnr f2d d2f dzero ctxE inOutE F hbE hF
    rw [heq]
    rfl
  · obtain ⟨impl2, work2, inOut2, calls, heq, -⟩ :=
      anr_process_spec xanr f2d d2f dzero ctxA inOutA G hbA hG
    rw [heq]
    rfl

/-- Witness for C6 at `frameCount = 0`. -/
theorem process_total_witness :
    emnrCtx480.bufSize = 480 ∧ anrCtx480.bufSize = 480 ∧
    (0 : Int) ≤ 0 ∧
    ((wdsp_emnr_process idStep id id (0 : Int) emnrCtx480 [] 0).isSome = true ∧
     (wdsp_anr_process idStep id id (0 : Int) anrCtx480 [] 0).isSome = true) :=
  ⟨rfl, rfl, le_refl 0,
   process_total Unit Unit Int Int idStep idStep id id 0 emnrCtx480 anrCtx480
     [] [] 0 0 rfl rfl (le_refl 0) (le_refl 0)⟩

/-- C1: for frame counts `F ≥ 0` not a multiple of the block size 480, both
process variants handle the final chunk of length `F mod 480` by
zero-filling the remaining `480 - (F mod 480)` scratch slots (real and
imaginary components) before the engine is invoked, and write back only the
first `F mod 480` output slots of that chunk: every caller-buffer position
at index ≥ `F` is untouched. -/
theorem process_final_partial_chunk (σE σA α δ : Type)
    [Inhabited α] [Inhabited δ]
    (xemnr : σE → List (δ × δ) → σE × List (δ × δ))
    (xanr : σA → List (δ × δ) → σA × List (δ × δ))
    (f2d : α → δ) (d2f : δ → α) (dzero : δ)
    (ctxE : WDSP_EMNR σE δ) (ctxA : WDSP_ANR σA δ)
    (inOutE inOutA : List α) (F : Int)
    (hbE : ctxE.bufSize = 480) (hbA : ctxA.bufSize = 480)
    (hF : 0 ≤ F) (hFm : F % 480 ≠ 0) :
    (∃ rE lastCall,
      wdsp_emnr_process xemnr f2d d2f dzero ctxE inOutE F = some rE ∧
      rE.2.2.getLast? = some lastCall ∧
      (∀ i : Nat, F.toNat % 480 ≤ i → i < 480 →
        lastCall[i]? = some (dzero, dzero)) ∧
      (∀ j : Nat, F ≤ (j : Int) → rE.2.1[j]? = inOutE[j]?)) ∧
    (∃ rA lastCall,
      wdsp_anr_process xanr f2d d2f dzero ctxA inOutA F = some rA ∧
      rA.2.2.getLast? = some lastCall ∧
      (∀ i : Nat, F.toNat % 480 ≤ i → i < 480 →
        lastCall[i]? = some (dzero, dzero)) ∧
      (∀ j : Nat, F ≤ (j : Int) → rA.2.1[j]? = inOutA[j]?)) := by
  have hFm' : F.toNat % 480 ≠ 0 := by omega
  constructor
  · obtain ⟨impl2, work2, inOut2, calls, heq, hlen, hio, hout, hlast⟩ :=
      emnr_process_spec xemnr f2d d2f dzero ctxE inOutE F hbE hF
    obtain ⟨lastCall, hl1, hl2⟩ := hlast hFm'
    exact ⟨(⟨impl2, work2, 480⟩, inOut2, calls), lastCall, heq, hl1, hl2, hout⟩
  · obtain ⟨impl2, work2, inOut2, calls, heq, hlen, hio, hout, hlast⟩ :=
      anr_process_spec xanr f2d d2f dzero ctxA inOutA F hbA hF
    obtain ⟨lastCall, hl1, hl2⟩ := hlast hFm'
    exact ⟨(⟨impl2, work2, 480⟩, inOut2, calls), lastCall, heq, hl1, hl2, hout⟩

/-- Witness for C1 at `F = 481 = 480 + 1` (final chunk of length 1). -/
theorem process_final_partial_chunk_witness :
    emnrCtx480.bufSize = 480 ∧ anrCtx480.bufSize = 480 ∧
    (0 : Int) ≤ 481 ∧ (481 : Int) % 480 ≠ 0 ∧
    ((∃ rE lastCall,
      wdsp_emnr_process idStep id id (0 : Int) emnrCtx480 [] 481 = some rE ∧
      rE.2.2.getLast? = some lastCall ∧
      (∀ i : Nat, (481 : Int).toNat % 480 ≤ i → i < 480 →
        lastCall[i]? = some ((0 : Int), (0 : Int))) ∧
      (∀ j : Nat, (481 : Int) ≤ (j : Int) → rE.2.1[j]? = ([] : List Int)[j]?)) ∧
    (∃ rA lastCall,
      wdsp_anr_process idStep id id (0 : Int) anrCtx480 [] 481 = some rA ∧
      rA.2.2.getLast? = some lastCall ∧
      (∀ i : Nat, (481 : Int).toNat % 480 ≤ i → i < 480 →
        lastCall[i]? = some ((0 : Int), (0 : Int))) ∧
      (∀ j : Nat, (481 : Int) ≤ (j : Int) → rA.2.1[j]? = ([] : List Int)[j]?))) :=
  ⟨rfl, rfl, by decide, by decide,
   process_final_partial_chunk Unit Unit Int Int idStep idStep id id 0
     emnrCtx480 anrCtx480 [] [] 481 rfl rfl (by decide) (by decide)⟩

/-- C2: for every `F ≥ 0`, both process variants invoke the engine exactly
`⌈F / 480⌉` times (one invocation per chunk); in particular `F = 0` gives
zero invocations and `F = 960` gives exactly two. -/
theorem process_engine_call_count (σE σA α δ : Type)
    [Inhabited α] [Inhabited δ]
    (xemnr : σE → List (δ × δ) → σE × List (δ × δ))
    (xanr : σA → List (δ × δ) → σA × List (δ × δ))
    (f2d : α → δ) (d2f : δ → α) (dzero : δ)
    (ctxE : WDSP_EMNR σE δ) (ctxA : WDSP_ANR σA δ)
    (inOutE inOutA : List α) (F G : Int)
    (hbE : ctxE.bufSize = 480) (hbA : ctxA.bufSize = 480)
    (hF : 0 ≤ F) (hG : 0 ≤ G) :
    (∃ rE, wdsp_emnr_process xemnr f2d d2f dzero ctxE inOutE F = some rE ∧
      rE.2.2.length = (F.toNat + 479) / 480) ∧
    (∃ rA, wdsp_anr_process xanr f2d d2f dzero ctxA inOutA G = some rA ∧
      rA.2.2.length = (G.toNat + 479) / 480) := by
  constructor
  · obtain ⟨impl2, work2, inOut2, calls, heq, hlen, -⟩ :=
      emnr_process_spec xemnr f2d d2f dzero ctxE inOutE F hbE hF
    exact ⟨(⟨impl2, work2, 480⟩, inOut2, calls), heq, hlen⟩
  · obtain ⟨impl2, work2, inOut2, calls, heq, hlen, -⟩ :=
      anr_process_spec xanr f2d d2f dzero ctxA inOutA G hbA hG
    exact ⟨(⟨impl2, work2, 480⟩, inOut2, calls), heq, hlen⟩

/-- Witness for C2: `F = 960` gives exactly 2 engine invocations on the
spectral variant, `G = 0` gives exactly 0 on the adaptive variant. -/
theorem process_engine_call_count_witness :
    emnrCtx480.bufSize = 480 ∧ anrCtx480.bufSize = 480 ∧
    (0 : Int) ≤ 960 ∧ (0 : Int) ≤ 0 ∧
    ((∃ rE, wdsp_emnr_process idStep id id (0 : Int) emnrCtx480
        (List.replicate 960 (0 : Int)) 960 = some rE ∧
      rE.2.2.length = 2) ∧
     (∃ rA, wdsp_anr_process idStep id id (0 : Int) anrCtx480 [] 0
        = some rA ∧
      rA.2.2.length = 0)) := by
  refine ⟨rfl, rfl, by decide, by decide, ?_⟩
  obtain ⟨hEpart, hApart⟩ :=
    process_engine_call_count Unit Unit Int Int idStep idStep id id 0
      emnrCtx480 anrCtx480 (List.replicate 960 (0 : Int)) [] 960 0
      rfl rfl (by decide) (by decide)
  obtain ⟨rE, h1, h2⟩ := hEpart
  obtain ⟨rA, h3, h4⟩ := hApart
  exact ⟨⟨rE, h1, by rw [h2]; decide⟩, ⟨rA, h3, by rw [h4]; decide⟩⟩

/-- C3: for every `F ≥ 0` and caller buffer of length `L ≥ F`, both process
variants mutate only positions `[0, F)`: the buffer length is unchanged
(in place, no resize) and every element at index ≥ `F` is unchanged. -/
theorem process_in_place_frame_effect (σE σA α δ : Type)
    [Inhabited α] [Inhabited δ]
    (xemnr : σE → List (δ × δ) → σE × List (δ × δ))
    (xanr : σA → List (δ × δ) → σA × List (δ × δ))
    (f2d : α → δ) (d2f : δ → α) (dzero : δ)
    (ctxE : WDSP_EMNR σE δ) (ctxA : WDSP_ANR σA δ)
    (inOutE inOutA : List α) (F G : Int)
    (hbE : ctxE.bufSize = 480) (hbA : ctxA.bufSize = 480)
    (hF : 0 ≤ F) (hG : 0 ≤ G)
    (hLE : F ≤ (inOutE.length : Int)) (hLA : G ≤ (inOutA.length : Int)) :
    (∃ rE, wdsp_emnr_process xemnr f2d d2f dzero ctxE inOutE F = some rE ∧
      rE.2.1.length = inOutE.length ∧
      (∀ j : Nat, F ≤ (j : Int) → rE.2.1[j]? = inOutE[j]?)) ∧
    (∃ rA, wdsp_anr_process xanr f2d d2f dzero ctxA inOutA G = some rA ∧
      rA.2.1.length = inOutA.length ∧
      (∀ j : Nat, G ≤ (j : Int) → rA.2.1[j]? = inOutA[j]?)) := by
  constructor
  · obtain ⟨impl2, work2, inOut2, calls, heq, -, hio, hout, -⟩ :=
      emnr_process_spec xemnr f2d d2f dzero ctxE inOutE F hbE hF
    exact ⟨(⟨impl2, work2, 480⟩, inOut2, calls), heq, hio, hout⟩
  · obtain ⟨impl2, work2, inOut2, calls, heq, -, hio, hout, -⟩ :=
      anr_process_spec xanr f2d d2f dzero ctxA inOutA G hbA hG
    exact ⟨(⟨impl2, work2, 480⟩, inOut2, calls), heq, hio, hout⟩

/-- Witness for C3 at `F = 1` on a 3-element buffer (positions 1 and 2 must
survive, length stays 3). -/
theorem process_in_place_frame_effect_witness :
    emnrCtx480.bufSize = 480 ∧ anrCtx480.bufSize = 480 ∧
    (0 : Int) ≤ 1 ∧
    (1 : Int) ≤ (([(8 : Int), 9, 10] : List Int).length : Int) ∧
    ((∃ rE, wdsp_emnr_process idStep id id (0 : Int) emnrCtx480
        [(8 : Int), 9, 10] 1 = some rE ∧
      rE.2.1.length = ([(8 : Int), 9, 10] : List Int).length ∧
      (∀ j : Nat, (1 : Int) ≤ (j : Int) →
        rE.2.1[j]? = ([(8 : Int), 9, 10] : List Int)[j]?)) ∧
     (∃ rA, wdsp_anr_process idStep id id (0 : Int) anrCtx480
        [(8 : Int), 9, 10] 1 = some rA ∧
      rA.2.1.length = ([(8 : Int), 9, 10] : List Int).length ∧
      (∀ j : Nat, (1 : Int) ≤ (j : Int) →
        rA.2.1[j]? = ([(8 : Int), 9, 10] : List Int)[j]?))) :=
  ⟨rfl, rfl, by decide, by decide,
   process_in_place_frame_effect Unit Unit Int Int idStep idStep id id 0
     emnrCtx480 anrCtx480 [(8 : Int), 9, 10] [(8 : Int), 9, 10] 1 1
     rfl rfl (by decide) (by decide) (by decide) (by decide)⟩

/-- C5: the adaptive variant's construction and subsequent behavior are
independent of the sample-rate argument: for any two rates `r1`, `r2`
(including 0), `wdsp_anr_create` returns identical results (same
success/failure, same handle, same allocation trace), and the instances
produced behave identically on every subsequent sequence of process calls
— the `sampleRate` input flows to nothing. -/
theorem anr_create_rate_agnostic (σ α δ : Type) [Inhabited α] [Inhabited δ]
    (allocCtxOk allocBufOk : Bool) (create_anr : AnrParams → Option σ)
    (dzero : δ) (r1 r2 : Int)
    (xanr : σ → List (δ × δ) → σ × List (δ × δ))
    (f2d : α → δ) (d2f : δ → α) :
    wdsp_anr_create allocCtxOk allocBufOk create_anr dzero r1
      = wdsp_anr_create allocCtxOk allocBufOk create_anr dzero r2 ∧
    (∀ h1 h2 : WDSP_ANR σ δ,
      (wdsp_anr_create allocCtxOk allocBufOk create_anr dzero r1).1 = some h1 →
      (wdsp_anr_create allocCtxOk allocBufOk create_anr dzero r2).1 = some h2 →
      ∀ jobs : List (List α × Int),
        anrProcessSeq xanr f2d d2f dzero h1 jobs
          = anrProcessSeq xanr f2d d2f dzero h2 jobs) := by
  have hcr : wdsp_anr_create allocCtxOk allocBufOk create_anr dzero r1
      = wdsp_anr_create allocCtxOk allocBufOk create_anr dzero r2 := rfl
  refine ⟨hcr, ?_⟩
  intro h1 h2 e1 e2 jobs
  rw [← hcr] at e2
  rw [e1] at e2
  obtain rfl := Option.some.inj e2
  rfl

/-- Witness for C5: rates 0 and 48000 produce the same instance, which then
behaves identically. -/
theorem anr_create_rate_agnostic_witness :
    ((wdsp_anr_create true true (fun _ => some ()) (0 : Int) 0 :
        Option (WDSP_ANR Unit Int) × List AllocEvent)
      = wdsp_anr_create true true (fun _ => some ()) (0 : Int) 48000) ∧
    (wdsp_anr_create true true (fun _ => some ()) (0 : Int) 0 :
        Option (WDSP_ANR Unit Int) × List AllocEvent).1 = some anrCtx480 ∧
    (wdsp_anr_create true true (fun _ => some ()) (0 : Int) 48000 :
        Option (WDSP_ANR Unit Int) × List AllocEvent).1 = some anrCtx480 ∧
    anrProcessSeq idStep id id (0 : Int) anrCtx480 [([(1 : Int)], 1)]
      = anrProcessSeq idStep id id (0 : Int) anrCtx480 [([(1 : Int)], 1)] :=
  ⟨(anr_create_rate_agnostic Unit Int Int true true (fun _ => some ()) 0 0
      48000 idStep id id).1,
   rfl, rfl,
   (anr_create_rate_agnostic Unit Int Int true true (fun _ => some ()) 0 0
      48000 idStep id id).2 anrCtx480 anrCtx480 rfl rfl [([(1 : Int)], 1)]⟩

/-- C8: given identical construction parameters and identical inputs, and
with the engine's per-block operation a deterministic function of its state
and buffer, two independently constructed instances of the same variant
produce identical output sequences over any sequence of process calls. -/
theorem process_deterministic (σE σA α δ : Type) [Inhabited α] [Inhabited δ]
    (aC aB : Bool) (create_emnr : EmnrParams → Option σE)
    (create_anr : AnrParams → Option σA) (dzero : δ) (rate : Int)
    (xemnr : σE → List (δ × δ) → σE × List (δ × δ))
    (xanr : σA → List (δ × δ) → σA × List (δ × δ))
    (f2d : α → δ) (d2f : δ → α)
    (h1 h2 : WDSP_EMNR σE δ) (g1 g2 : WDSP_ANR σA δ)
    (t1 t2 u1 u2 : List AllocEvent)
    (eE1 : wdsp_emnr_create aC aB create_emnr dzero rate = (some h1, t1))
    (eE2 : wdsp_emnr_create aC aB create_emnr dzero rate = (some h2, t2))
    (eA1 : wdsp_anr_create aC aB create_anr dzero rate = (some g1, u1))
    (eA2 : wdsp_anr_create aC aB create_anr dzero rate = (some g2, u2)) :
    (∀ jobs : List (List α × Int),
      emnrProcessSeq xemnr f2d d2f dzero h1 jobs
        = emnrProcessSeq xemnr f2d d2f dzero h2 jobs) ∧
    (∀ jobs : List (List α × Int),
      anrProcessSeq xanr f2d d2f dzero g1 jobs
        = anrProcessSeq xanr f2d d2f dzero g2 jobs) := by
  rw [eE1] at eE2
  rw [eA1] at eA2
  injection eE2 with hsE htE
  injection eA2 with hsA htA
  obtain rfl := Option.some.inj hsE
  obtain rfl := Option.some.inj hsA
  exact ⟨fun jobs => rfl, fun jobs => rfl⟩

/-- Witness for C8: two (identical) constructions at 48000 Hz and one
process call of one frame. -/
theorem process_deterministic_witness :
    ((wdsp_emnr_create true true (fun _ => some ()) (0 : Int) 48000 :
        Option (WDSP_EMNR Unit Int) × List AllocEvent)
      = (some emnrCtx480,
         [AllocEvent.allocCtx, AllocEvent.allocBuf, AllocEvent.allocEngine])) ∧
    ((wdsp_anr_create true true (fun _ => some ()) (0 : Int) 48000 :
        Option (WDSP_ANR Unit Int) × List AllocEvent)
      = (some anrCtx480,
         [AllocEvent.allocCtx, AllocEvent.allocBuf, AllocEvent.allocEngine])) ∧
    emnrProcessSeq idStep id id (0 : Int) emnrCtx480 [([(2 : Int)], 1)]
      = emnrProcessSeq idStep id id (0 : Int) emnrCtx480 [([(2 : Int)], 1)] ∧
    anrProcessSeq idStep id id (0 : Int) anrCtx480 [([(2 : Int)], 1)]
      = anrProcessSeq idStep id id (0 : Int) anrCtx480 [([(2 : Int)], 1)] :=
  ⟨rfl, rfl,
   (process_deterministic Unit Unit Int Int true true (fun _ => some ())
      (fun _ => some ()) 0 48000 idStep idStep id id emnrCtx480 emnrCtx480
      anrCtx480 anrCtx480
      [AllocEvent.allocCtx, AllocEvent.allocBuf, AllocEvent.allocEngine]
      [AllocEvent.allocCtx, AllocEvent.allocBuf, AllocEvent.allocEngine]
      [AllocEvent.allocCtx, AllocEvent.allocBuf, AllocEvent.allocEngine]
      [AllocEvent.allocCtx, AllocEvent.allocBuf, AllocEvent.allocEngine]
      rfl rfl rfl rfl).1 [([(2 : Int)], 1)],
   (process_deterministic Unit Unit Int Int true true (fun _ => some ())
      (fun _ => some ()) 0 48000 idStep idStep id id emnrCtx480 emnrCtx480
      anrCtx480 anrCtx480
      [AllocEvent.allocCtx, AllocEvent.allocBuf, AllocEvent.allocEngine]
      [AllocEvent.allocCtx, AllocEvent.allocBuf, AllocEvent.allocEngine]
      [AllocEvent.allocCtx, AllocEvent.allocBuf, AllocEvent.allocEngine]
      [AllocEvent.allocCtx, AllocEvent.allocBuf, AllocEvent.allocEngine]
      rfl rfl rfl rfl).2 [([(2 : Int)], 1)]⟩

set_option maxRecDepth 8192 in
/-- C7: `wdsp_emnr_create` and `wdsp_anr_create` return NULL exactly when
the handle allocation, the scratch-buffer allocation, or the engine
construction fails; on each failure path every earlier allocation is freed
before returning (nothing on handle-allocation failure, the handle on
scratch-buffer failure, the scratch buffer then the handle on
engine-construction failure), and on success a non-null handle owning the
engine, the scratch buffer and the block size is returned with nothing
freed. -/
theorem create_failure_paths (σE σA δ : Type) (aC aB : Bool)
    (create_emnr : EmnrParams → Option σE) (create_anr : AnrParams → Option σA)
    (dzero : δ) (rate : Int) :
    (((wdsp_emnr_create aC aB create_emnr dzero rate).1 = none ↔
        (aC = false ∨ aB = false ∨ create_emnr (emnrCreateParams rate) = none)) ∧
     (aC = false → (wdsp_emnr_create aC aB create_emnr dzero rate).2 = []) ∧
     (aC = true → aB = false →
        (wdsp_emnr_create aC aB create_emnr dzero rate).2
          = [AllocEvent.allocCtx, AllocEvent.freeCtx]) ∧
     (aC = true → aB = true → create_emnr (emnrCreateParams rate) = none →
        (wdsp_emnr_create aC aB create_emnr dzero rate).2
          = [AllocEvent.allocCtx, AllocEvent.allocBuf, AllocEvent.freeBuf,
             AllocEvent.freeCtx]) ∧
     (∀ h, (wdsp_emnr_create aC aB create_emnr dzero rate).1 = some h →
        create_emnr (emnrCreateParams rate) = some h.impl ∧
        h.workBuf = List.replicate 480 (dzero, dzero) ∧
        h.bufSize = 480 ∧
        (wdsp_emnr_create aC aB create_emnr dzero rate).2
          = [AllocEvent.allocCtx, AllocEvent.allocBuf,
             AllocEvent.allocEngine])) ∧
    (((wdsp_anr_create aC aB create_anr dzero rate).1 = none ↔
        (aC = false ∨ aB = false ∨ create_anr anrCreateParams = none)) ∧
     (aC = false → (wdsp_anr_create aC aB create_anr dzero rate).2 = []) ∧
     (aC = true → aB = false →
        (wdsp_anr_create aC aB create_anr dzero rate).2
          = [AllocEvent.allocCtx, AllocEvent.freeCtx]) ∧
     (aC = true → aB = true → create_anr anrCreateParams = none →
        (wdsp_anr_create aC aB create_anr dzero rate).2
          = [AllocEvent.allocCtx, AllocEvent.allocBuf, AllocEvent.freeBuf,
             AllocEvent.freeCtx]) ∧
     (∀ h, (wdsp_anr_create aC aB create_anr dzero rate).1 = some h →
        create_anr anrCreateParams = some h.impl ∧
        h.workBuf = List.replicate 480 (dzero, dzero) ∧
        h.bufSize = 480 ∧
        (wdsp_anr_create aC aB create_anr dzero rate).2
          = [AllocEvent.allocCtx, AllocEvent.allocBuf,
             AllocEvent.allocEngine])) := by
  constructor
  · cases aC with
    | false => simp [wdsp_emnr_create]
    | true =>
      cases aB with
      | false => simp [wdsp_emnr_create]
      | true =>
        cases hm : create_emnr (emnrCreateParams rate) with
        | none => simp [wdsp_emnr_create, hm]
        | some impl =>
          simp only [wdsp_emnr_create, hm]
          refine ⟨by simp, by simp, by simp, by simp, ?_⟩
          intro h hh
          obtain rfl := Option.some.inj hh
          exact ⟨rfl, rfl, rfl, rfl⟩
  · cases aC with
    | false => simp [wdsp_anr_create]
    | true =>
      cases aB with
      | false => simp [wdsp_anr_create]
      | true =>
        cases hm : create_anr anrCreateParams with
        | none => simp [wdsp_anr_create, hm]
        | some impl =>
          simp only [wdsp_anr_create, hm]
          refine ⟨by simp, by simp, by simp, by simp, ?_⟩
          intro h hh
          obtain rfl := Option.some.inj hh
          exact ⟨rfl, rfl, rfl, rfl⟩

/-- Witness for C7: with both allocations succeeding and an engine
constructor that fails, both creates return NULL. -/
theorem create_failure_paths_witness :
    ((wdsp_emnr_create true true (fun _ => (none : Option Unit)) (0 : Int)
        48000).1 = none ∧
     (wdsp_emnr_create true true (fun _ => (none : Option Unit)) (0 : Int)
        48000).2
       = [AllocEvent.allocCtx, AllocEvent.allocBuf, AllocEvent.freeBuf,
          AllocEvent.freeCtx]) ∧
    ((wdsp_anr_create true true (fun _ => (none : Option Unit)) (0 : Int)
        48000).1 = none ∧
     (wdsp_anr_create true true (fun _ => (none : Option Unit)) (0 : Int)
        48000).2
       = [AllocEvent.allocCtx, AllocEvent.allocBuf, AllocEvent.freeBuf,
          AllocEvent.freeCtx]) :=
  ⟨⟨(create_failure_paths Unit Unit Int true true
       (fun _ => (none : Option Unit)) (fun _ => (none : Option Unit)) 0
       48000).1.1.mpr (Or.inr (Or.inr rfl)),
    (create_failure_paths Unit Unit Int true true
       (fun _ => (none : Option Unit)) (fun _ => (none : Option Unit)) 0
       48000).1.2.2.2.1 rfl rfl rfl⟩,
   ⟨(create_failure_paths Unit Unit Int true true
       (fun _ => (none : Option Unit)) (fun _ => (none : Option Unit)) 0
       48000).2.1.mpr (Or.inr (Or.inr rfl)),
    (create_failure_paths Unit Unit Int true true
       (fun _ => (none : Option Unit)) (fun _ => (none : Option Unit)) 0
       48000).2.2.2.2.1 rfl rfl rfl⟩⟩

end Wdsp
